import Mathlib

/-!
# Verification of the MLB offense-quality ranking core

Shallow embedding of `mlb_offense_quality.py` (class `MLBOffensiveRanking`).
Python floats are modelled as exact rationals (`ℚ`); float rounding is not
modelled.  Instance state (`self.smoothing_factor`, `self.pitcher_stats`,
`self.park_factors`) is passed explicitly as function arguments.  Python
dictionaries are modelled as association lists with `List.lookup`, and
`dict.get(k, default)` as `(·.lookup k).getD default`.
-/

namespace MLB

/-! ## Smoothing Transform (`smooth_adjustment_factor`, lines 185-220) -/

/-- `smooth_adjustment_factor` from the source.  With `smoothing_factor == 0`
the function returns `ra9_minus / 100.0` directly (early return, lines
204-206); otherwise it damps the deviation from 100 and clamps the result with
`max(0.5, min(1.5, adjustment_factor))` (line 218). -/
def smooth_adjustment_factor (smoothing_factor ra9_minus : ℚ) : ℚ :=
  if smoothing_factor = 0 then
    ra9_minus / 100
  else
    let deviation := ra9_minus - 100
    let smoothed_deviation := deviation * (1 - smoothing_factor)
    let smoothed_ra9_minus := 100 + smoothed_deviation
    let adjustment_factor := smoothed_ra9_minus / 100
    max (1/2) (min (3/2) adjustment_factor)

/-! ## Pitching Quality Index (`get_pitcher_ra9_minus`, lines 162-183) -/

/-- One team's season pitching totals together with the league baseline, the
fields of the `pitcher_stats_dict` read by `get_pitcher_ra9_minus`.  In the
pipeline `league_avg_ra9` is always set by `calculate_team_pitching_quality`
before `get_pitcher_ra9_minus` is called. -/
structure PitcherStats where
  runs_allowed : ℚ
  innings_pitched : ℚ
  league_avg_ra9 : ℚ
deriving DecidableEq, Repr

/-- `get_pitcher_ra9_minus` from the source.  `none` models an empty/absent
stats dict (`not pitcher_stats_dict`); a zero `innings_pitched` also yields
the neutral value 100. -/
def get_pitcher_ra9_minus (stats : Option PitcherStats) : ℚ :=
  match stats with
  | none => 100
  | some s =>
    if s.innings_pitched = 0 then 100
    else
      let ra9 := s.runs_allowed / s.innings_pitched * 9
      ra9 / s.league_avg_ra9 * 100

/-! ## Park Factor Calculator (`calculate_park_factors`, lines 412-427) -/

/-- One venue's accumulated `{'runs': ..., 'games': ...}` entry of
`venue_stats`. -/
structure VenueStats where
  runs : ℚ
  games : ℕ
deriving DecidableEq, Repr

/-- `min_games_threshold = 10` (line 418). -/
def min_games_threshold : ℕ := 10

/-- The per-venue park-factor computation of `calculate_park_factors`
(lines 420-427): with at least `min_games_threshold` games the factor is
`(runs / games) / league_avg_runs`, otherwise neutral `1.0`. -/
def park_factor_of (league_avg_runs : ℚ) (vs : VenueStats) : ℚ :=
  if min_games_threshold ≤ vs.games then
    let runs_per_game := vs.runs / vs.games
    runs_per_game / league_avg_runs
  else 1

/-! ## Helper lemmas on the smoothing transform -/

theorem smooth_factor_of_ne_zero (s ra9 : ℚ) (hs : s ≠ 0) :
    smooth_adjustment_factor s ra9
      = max (1/2) (min (3/2) ((100 + (ra9 - 100) * (1 - s)) / 100)) := by
  simp [smooth_adjustment_factor, hs]

theorem smooth_factor_of_zero (ra9 : ℚ) :
    smooth_adjustment_factor 0 ra9 = ra9 / 100 := by
  simp [smooth_adjustment_factor]

theorem smooth_factor_ge_half (s ra9 : ℚ) (hs : s ≠ 0) :
    1/2 ≤ smooth_adjustment_factor s ra9 := by
  rw [smooth_factor_of_ne_zero s ra9 hs]
  exact le_max_left _ _

theorem smooth_factor_le (s ra9 : ℚ) (hs : s ≠ 0) :
    smooth_adjustment_factor s ra9 ≤ 3/2 := by
  rw [smooth_factor_of_ne_zero s ra9 hs]
  exact max_le (by norm_num) (min_le_left _ _)

theorem smooth_factor_ne_zero (s ra9 : ℚ) (hs : s ≠ 0) :
    smooth_adjustment_factor s ra9 ≠ 0 := by
  have h := smooth_factor_ge_half s ra9 hs
  intro h0
  rw [h0] at h
  norm_num at h

/-! ## Innings Parser (`parse_innings`, lines 348-360)

The parser works on the character list of the input string.  Python's
`str.split('.')` splits at every occurrence of the separator; the tuple
unpacking `whole, partial = innings_str.split('.')` raises (and so falls into
the `except` returning `0.0`) unless the split has exactly two parts. -/

/-- Value of a list of decimal digit characters, as Python's `int()` reads
them (most significant first; leading zeros allowed). -/
def digitsVal (l : List Char) : ℕ :=
  l.foldl (fun acc c => 10 * acc + (c.toNat - 48)) 0

/-- Model of Python's `int(str)` restricted to an optional sign followed by
decimal digits.  Python additionally strips whitespace and allows `_` digit
separators; those forms never occur in innings data and are not modelled. -/
def pyInt? (l : List Char) : Option ℤ :=
  match l with
  | [] => none
  | c :: rest =>
    if c = '-' then
      if !rest.isEmpty && rest.all Char.isDigit then some (-(digitsVal rest : ℤ)) else none
    else if c = '+' then
      if !rest.isEmpty && rest.all Char.isDigit then some (digitsVal rest) else none
    else if (c :: rest).all Char.isDigit then some (digitsVal (c :: rest)) else none

/-- Model of Python's `float(str)` as used in the dot-free branch of
`parse_innings`, restricted to integer syntax.  Exponent / `inf` / `nan`
forms of Python's float grammar never occur in innings data and are not
modelled. -/
def pyFloatSimple? (l : List Char) : Option ℚ :=
  (pyInt? l).map (fun i : ℤ => (i : ℚ))

/-- Python's `s.split('.')`: split the character list at every `'.'`. -/
def splitOnDot : List Char → List (List Char)
  | [] => [[]]
  | c :: rest =>
    match splitOnDot rest with
    | [] => [[]]
    | h :: t => if c = '.' then [] :: h :: t else (c :: h) :: t

/-- `parse_innings` from the source, over the character list of the input
string: a `"whole.fraction"` value maps to `int(whole) + int(partial)/3`;
a dot-free value goes through `float`; every failure path (wrong number of
parts, unparseable components) is caught and yields `0.0`. -/
def parse_innings_chars (l : List Char) : ℚ :=
  if l.contains '.' then
    match splitOnDot l with
    | [w, p] =>
      match pyInt? w, pyInt? p with
      | some wi, some pi => (wi : ℚ) + (pi : ℚ) / 3
      | _, _ => 0
    | _ => 0
  else
    match pyFloatSimple? l with
    | some v => v
    | none => 0

/-- String-level wrapper for `parse_innings`.  (A numeric argument is first
converted with `str()` in the source; only the textual path is modelled.) -/
def parse_innings (s : String) : ℚ := parse_innings_chars s.toList

/-! ### Parser helper lemmas -/

theorem splitOnDot_ne_nil (l : List Char) : splitOnDot l ≠ [] := by
  cases l with
  | nil => simp [splitOnDot]
  | cons c rest =>
    simp only [splitOnDot]
    cases h : splitOnDot rest with
    | nil => simp
    | cons h t =>
      by_cases hc : c = '.' <;> simp [hc]

theorem splitOnDot_no_dot (l : List Char) (h : '.' ∉ l) : splitOnDot l = [l] := by
  induction l with
  | nil => rfl
  | cons c rest ih =>
    have hc : c ≠ '.' := fun hc => h (hc ▸ List.mem_cons_self c rest)
    have hrest : '.' ∉ rest := fun hr => h (List.mem_cons_of_mem c hr)
    simp only [splitOnDot, ih hrest]
    simp [hc]

theorem splitOnDot_append_dot (w f : List Char) (hw : '.' ∉ w) :
    splitOnDot (w ++ '.' :: f) = w :: splitOnDot f := by
  induction w with
  | nil =>
    simp only [List.nil_append, splitOnDot]
    cases h : splitOnDot f with
    | nil => exact absurd h (splitOnDot_ne_nil f)
    | cons h t => simp
  | cons c rest ih =>
    have hc : c ≠ '.' := fun hc => hw (hc ▸ List.mem_cons_self c rest)
    have hrest : '.' ∉ rest := fun hr => hw (List.mem_cons_of_mem c hr)
    simp only [List.cons_append, splitOnDot, List.append_eq]
    rw [ih hrest]
    simp [hc]

theorem pyInt?_digits (l : List Char) (hne : l ≠ []) (hd : l.all Char.isDigit) :
    pyInt? l = some (digitsVal l : ℤ) := by
  cases l with
  | nil => exact absurd rfl hne
  | cons c rest =>
    have hc : c.isDigit := by
      have := List.all_eq_true.mp hd c (List.mem_cons_self c rest)
      exact this
    have hcm : c ≠ '-' := by
      intro h; rw [h] at hc; simp [Char.isDigit] at hc
    have hcp : c ≠ '+' := by
      intro h; rw [h] at hc; simp [Char.isDigit] at hc
    simp [pyInt?, hcm, hcp, hd]

theorem digit_not_dot (c : Char) (hc : c.isDigit) : c ≠ '.' := by
  intro h; rw [h] at hc; simp [Char.isDigit] at hc

theorem no_dot_of_all_digits (l : List Char) (hd : l.all Char.isDigit) : '.' ∉ l := by
  intro hm
  have := List.all_eq_true.mp hd '.' hm
  simp [Char.isDigit] at this

/-- The well-formed "whole.fraction" path of `parse_innings`: digit strings on
both sides of a single dot map to `whole + fraction / 3`. -/
theorem parse_innings_chars_dot (w f : List Char) (hwne : w ≠ []) (hfne : f ≠ [])
    (hwd : w.all Char.isDigit) (hfd : f.all Char.isDigit) :
    parse_innings_chars (w ++ '.' :: f) = (digitsVal w : ℚ) + (digitsVal f : ℚ) / 3 := by
  have hwdot : '.' ∉ w := no_dot_of_all_digits w hwd
  have hfdot : '.' ∉ f := no_dot_of_all_digits f hfd
  have hmem : ('.' : Char) ∈ w ++ '.' :: f := List.mem_append_right w (List.mem_cons_self _ _)
  have hcont : (w ++ '.' :: f).contains '.' = true := by
    simp
  have hsplit : splitOnDot (w ++ '.' :: f) = [w, f] := by
    rw [splitOnDot_append_dot w f hwdot]
    rw [splitOnDot_no_dot f hfdot]
  simp only [parse_innings_chars, hcont, if_true, hsplit,
    pyInt?_digits w hwne hwd, pyInt?_digits f hfne hfd]
  push_cast
  ring

/-! ## Per-Game Adjustment Engine
(`calculate_adjusted_offensive_quality`, lines 469-510) -/

/-- Throwing hand of the opposing starting pitcher: `'L'`, `'R'` or
`'Unknown'`. -/
inductive Hand where
  | L
  | R
  | Unknown
deriving DecidableEq, Repr, BEq

/-- One completed game as experienced by one team, the fields of the dict
built by `process_team_games` that the adjustment engine reads.
`venue_id := none` models a missing venue id (Python `None`). -/
structure GameRecord where
  opponent_id : ℕ
  pitcher_hand : Hand
  is_home : Bool
  venue_id : Option ℕ
  game_score : ℚ
deriving DecidableEq, Repr

/-- The park-factor lookup of line 483:
`park_factor = self.park_factors.get(venue_id, 1.0) if venue_id else 1.0`.
A falsy `venue_id` (Python `None`, and also the id `0`) yields `1.0`; an id
absent from the table falls back to the `get` default `1.0`. -/
def game_park_factor (park_factors : List (ℕ × ℚ)) (venue_id : Option ℕ) : ℚ :=
  match venue_id with
  | none => 1
  | some v => if v = 0 then 1 else (park_factors.lookup v).getD 1

/-- The opponent RA9- lookup of line 475:
`self.pitcher_stats.get(opp_id, {}).get('ra9_minus', 100)`.
`pitcher_stats` is modelled as the map from team id to the `ra9_minus`
value stored by `calculate_team_pitching_quality`. -/
def opponent_ra9_minus (pitcher_stats : List (ℕ × ℚ)) (opp_id : ℕ) : ℚ :=
  (pitcher_stats.lookup opp_id).getD 100

/-- The per-game results kept by the aggregation loop. -/
structure AdjustedGame where
  adjusted_score : ℚ
  adjusted_score_no_park : ℚ
  hand : Hand
  is_home : Bool
deriving DecidableEq, Repr

/-- The body of the per-game loop of `calculate_adjusted_offensive_quality`
(lines 469-510): look up opponent RA9-, smooth it, look up the park factor,
and divide the raw game score by the combined factor (and, for the home/away
variant, by the opponent factor alone). -/
def adjust_game (smoothing_factor : ℚ) (pitcher_stats park_factors : List (ℕ × ℚ))
    (g : GameRecord) : AdjustedGame :=
  let opp_ra9_minus := opponent_ra9_minus pitcher_stats g.opponent_id
  let adjustment_factor := smooth_adjustment_factor smoothing_factor opp_ra9_minus
  let park_factor := game_park_factor park_factors g.venue_id
  let combined_adjustment := adjustment_factor * park_factor
  { adjusted_score := g.game_score / combined_adjustment
    adjusted_score_no_park := g.game_score / adjustment_factor
    hand := g.pitcher_hand
    is_home := g.is_home }

theorem adjust_game_score (s : ℚ) (pt qt : List (ℕ × ℚ)) (g : GameRecord) :
    (adjust_game s pt qt g).adjusted_score
      = g.game_score / (smooth_adjustment_factor s (opponent_ra9_minus pt g.opponent_id)
          * game_park_factor qt g.venue_id) := rfl

theorem adjust_game_no_park (s : ℚ) (pt qt : List (ℕ × ℚ)) (g : GameRecord) :
    (adjust_game s pt qt g).adjusted_score_no_park
      = g.game_score / smooth_adjustment_factor s (opponent_ra9_minus pt g.opponent_id) := rfl

theorem adjust_game_hand (s : ℚ) (pt qt : List (ℕ × ℚ)) (g : GameRecord) :
    (adjust_game s pt qt g).hand = g.pitcher_hand := rfl

theorem adjust_game_is_home (s : ℚ) (pt qt : List (ℕ × ℚ)) (g : GameRecord) :
    (adjust_game s pt qt g).is_home = g.is_home := rfl

/-! ## Team Aggregator
(`calculate_adjusted_offensive_quality`, lines 494-558) -/

/-- `sum(xs) / len(xs) if xs else 0`: average of a split, defined as 0 for an
empty split. -/
def avg_or_zero (xs : List ℚ) : ℚ :=
  if xs.isEmpty then 0 else xs.sum / xs.length

/-- The per-team result row appended to `all_team_results`
(lines 535-556), restricted to the fields the ranking engine reads.
(`team_name`, `abbreviation`, `division` and the raw counting-stat totals are
display-only and are not modelled.) -/
structure TeamResult where
  team_id : ℕ
  games_played : ℕ
  avg_adjusted_score : ℚ
  avg_adj_vs_lhp : ℚ
  avg_adj_vs_rhp : ℚ
  games_vs_lhp : ℕ
  games_vs_rhp : ℕ
  avg_adj_home : ℚ
  avg_adj_away : ℚ
  games_home : ℕ
  games_away : ℕ
deriving DecidableEq, Repr

/-- The aggregation of one team's games in
`calculate_adjusted_offensive_quality`: per-game adjustment followed by the
split accumulation (hand `'L'`/`'R'` with park factor, home/away without)
and the `sum/len if len else 0` averages. -/
def team_result (tid : ℕ) (smoothing_factor : ℚ)
    (pitcher_stats park_factors : List (ℕ × ℚ)) (games : List GameRecord) : TeamResult :=
  let adj := games.map (adjust_game smoothing_factor pitcher_stats park_factors)
  let adjusted_scores := adj.map (·.adjusted_score)
  let adjusted_scores_vs_lhp :=
    (adj.filter (fun a => decide (a.hand = Hand.L))).map (·.adjusted_score)
  let adjusted_scores_vs_rhp :=
    (adj.filter (fun a => decide (a.hand = Hand.R))).map (·.adjusted_score)
  let adjusted_scores_home := (adj.filter (fun a => a.is_home)).map (·.adjusted_score_no_park)
  let adjusted_scores_away := (adj.filter (fun a => !a.is_home)).map (·.adjusted_score_no_park)
  { team_id := tid
    games_played := games.length
    avg_adjusted_score := if games.length = 0 then 0 else adjusted_scores.sum / games.length
    avg_adj_vs_lhp := avg_or_zero adjusted_scores_vs_lhp
    avg_adj_vs_rhp := avg_or_zero adjusted_scores_vs_rhp
    games_vs_lhp := adjusted_scores_vs_lhp.length
    games_vs_rhp := adjusted_scores_vs_rhp.length
    avg_adj_home := avg_or_zero adjusted_scores_home
    avg_adj_away := avg_or_zero adjusted_scores_away
    games_home := adjusted_scores_home.length
    games_away := adjusted_scores_away.length }

/-! ### Aggregation helper lemmas -/

theorem filter_map_length {α β : Type} (F : α → β) (p : β → Bool) (l : List α) :
    ((l.map F).filter p).length = (l.filter (fun x => p (F x))).length := by
  rw [List.filter_map]
  simp [Function.comp_def]

theorem filter_map_map {α β γ : Type} (F : α → β) (p : β → Bool) (pr : β → γ) (l : List α) :
    ((l.map F).filter p).map pr = (l.filter (fun x => p (F x))).map (fun x => pr (F x)) := by
  rw [List.filter_map]
  simp [Function.comp_def, List.map_map]

theorem hand_partition (games : List GameRecord) :
    (games.filter (fun g => decide (g.pitcher_hand = Hand.L))).length
      + (games.filter (fun g => decide (g.pitcher_hand = Hand.R))).length
      + (games.filter (fun g => decide (g.pitcher_hand = Hand.Unknown))).length
      = games.length := by
  induction games with
  | nil => rfl
  | cons g rest ih =>
    cases hg : g.pitcher_hand <;> simp [List.filter_cons, hg] <;> omega

theorem bool_partition {α : Type} (p : α → Bool) (l : List α) :
    (l.filter p).length + (l.filter (fun x => !p x)).length = l.length := by
  induction l with
  | nil => rfl
  | cons x rest ih =>
    cases hp : p x <;> simp [List.filter_cons, hp] <;> omega

theorem avg_or_zero_nil : avg_or_zero [] = 0 := rfl

theorem avg_or_zero_of_length_zero (xs : List ℚ) (h : xs.length = 0) :
    avg_or_zero xs = 0 := by
  rw [List.length_eq_zero] at h
  rw [h]
  rfl

theorem avg_or_zero_of_ne_nil (xs : List ℚ) (h : ¬xs.length = 0) :
    avg_or_zero xs = xs.sum / xs.length := by
  have : ¬xs.isEmpty := by
    cases xs with
    | nil => simp at h
    | cons a t => simp
  simp [avg_or_zero, this]

/-! ## Ranking Engine (`generate_rankings`, lines 560-634)

`df.sort_values(col, ascending=False)` is modelled as a sort by the
descending order of the column (pandas' default quicksort gives no stability
guarantee, so any order-respecting sort is a faithful model); assigning
`range(1, len(df)+1)` to the sorted frame is modelled positionally.  The
`merge(..., how='left')` on `team_id` followed by `fillna(0)` is modelled by
`rank_in`: the 1-based position of the team id in the split's sorted frame,
`0` when the id is absent.  The final `sort_values('rank')` restores the
overall order, in which the rows are built here. -/

/-- Sort a list of team rows by a rational key, largest first
(`sort_values(..., ascending=False)`). -/
def sortDesc (f : TeamResult → ℚ) (l : List TeamResult) : List TeamResult :=
  List.insertionSort (fun a b => f b ≤ f a) l

/-- 1-based position of the first row with the given team id, `0` when no row
matches: the left-merge on `team_id` followed by `fillna(0).astype(int)`
(lines 590-615). -/
def rank_in : List TeamResult → ℕ → ℕ
  | [], _ => 0
  | t :: rest, id =>
    if t.team_id = id then 1
    else
      let r := rank_in rest id
      if r = 0 then 0 else r + 1

/-- One split's ranked frame: filter to rows with a positive game count in
the split, then sort by the split's average, descending (e.g. lines
569-571 for the vs-LHP split). -/
def split_table (count : TeamResult → ℕ) (avg : TeamResult → ℚ)
    (sorted : List TeamResult) : List TeamResult :=
  sortDesc avg (sorted.filter (fun t => decide (0 < count t)))

/-- The overall frame: all rows sorted by `avg_adjusted_score`, descending
(lines 563-565). -/
def overall_sorted (results : List TeamResult) : List TeamResult :=
  sortDesc (·.avg_adjusted_score) results

/-- A row of the final merged table: the five rank columns next to the
team's result row. -/
structure RankedRow where
  rank : ℕ
  rank_vs_lhp : ℕ
  rank_vs_rhp : ℕ
  rank_home : ℕ
  rank_away : ℕ
  result : TeamResult
deriving DecidableEq, Repr

/-- `generate_rankings` from the source: rank all rows by overall average,
rank each split's qualifying rows separately, merge the split ranks back by
team id with `0` for absent teams, and return the table in overall-rank
order. -/
def generate_rankings (results : List TeamResult) : List RankedRow :=
  (overall_sorted results).enum.map fun p =>
    { rank := p.1 + 1
      rank_vs_lhp := rank_in
        (split_table (·.games_vs_lhp) (·.avg_adj_vs_lhp) (overall_sorted results)) p.2.team_id
      rank_vs_rhp := rank_in
        (split_table (·.games_vs_rhp) (·.avg_adj_vs_rhp) (overall_sorted results)) p.2.team_id
      rank_home := rank_in
        (split_table (·.games_home) (·.avg_adj_home) (overall_sorted results)) p.2.team_id
      rank_away := rank_in
        (split_table (·.games_away) (·.avg_adj_away) (overall_sorted results)) p.2.team_id
      result := p.2 }

/-! ### Ranking helper lemmas -/

theorem sortDesc_perm (f : TeamResult → ℚ) (l : List TeamResult) :
    (sortDesc f l).Perm l :=
  List.perm_insertionSort _ l

theorem sortDesc_sorted (f : TeamResult → ℚ) (l : List TeamResult) :
    (sortDesc f l).Pairwise (fun a b => f b ≤ f a) := by
  letI ht : IsTotal TeamResult (fun a b => f b ≤ f a) := ⟨fun a b => le_total (f b) (f a)⟩
  letI htr : IsTrans TeamResult (fun a b => f b ≤ f a) :=
    ⟨fun _ _ _ h1 h2 => le_trans h2 h1⟩
  exact List.sorted_insertionSort _ l

theorem rank_in_eq_zero (l : List TeamResult) (id : ℕ)
    (h : ∀ t ∈ l, t.team_id ≠ id) : rank_in l id = 0 := by
  induction l with
  | nil => rfl
  | cons t rest ih =>
    have ht := h t (List.mem_cons_self t rest)
    have hrest : ∀ u ∈ rest, u.team_id ≠ id := fun u hu => h u (List.mem_cons_of_mem t hu)
    simp [rank_in, ht, ih hrest]

theorem rank_in_getElem (l : List TeamResult)
    (hn : (l.map (·.team_id)).Nodup) (i : ℕ) (h : i < l.length) :
    rank_in l (l[i].team_id) = i + 1 := by
  induction l generalizing i with
  | nil => simp at h
  | cons t rest ih =>
    simp only [List.map_cons, List.nodup_cons] at hn
    obtain ⟨hni, hnr⟩ := hn
    cases i with
    | zero => simp [rank_in]
    | succ j =>
      have hj : j < rest.length := by simpa using h
      have hg : (t :: rest)[j+1] = rest[j] := List.getElem_cons_succ t rest j h
      rw [hg]
      have hne : ¬(t.team_id = rest[j].team_id) := by
        intro he
        exact hni (he ▸ List.mem_map_of_mem (·.team_id) (rest.getElem_mem hj))
      have hr := ih hnr j hj
      simp [rank_in, hne, hr]

theorem rank_in_mem (l : List TeamResult) (hn : (l.map (·.team_id)).Nodup)
    (t : TeamResult) (ht : t ∈ l) :
    ∃ i, ∃ h : i < l.length, l[i] = t ∧ rank_in l t.team_id = i + 1 := by
  obtain ⟨i, h, he⟩ := List.mem_iff_getElem.mp ht
  exact ⟨i, h, he, by rw [← he]; exact rank_in_getElem l hn i h⟩

theorem rank_in_map_self (l : List TeamResult) (hn : (l.map (·.team_id)).Nodup) :
    l.map (fun t => rank_in l t.team_id) = List.range' 1 l.length := by
  apply List.ext_getElem (by simp)
  intro i h1 h2
  simp only [List.getElem_map, List.getElem_range']
  rw [rank_in_getElem l hn i (by simpa using h1)]
  omega

theorem overall_sorted_nodup (results : List TeamResult)
    (hn : (results.map (·.team_id)).Nodup) :
    ((overall_sorted results).map (·.team_id)).Nodup :=
  (((sortDesc_perm _ results).map (·.team_id)).symm).nodup hn

theorem split_table_nodup (c : TeamResult → ℕ) (a : TeamResult → ℚ)
    (sorted : List TeamResult) (hn : (sorted.map (·.team_id)).Nodup) :
    ((split_table c a sorted).map (·.team_id)).Nodup := by
  have hf : ((sorted.filter (fun t => decide (0 < c t))).map (·.team_id)).Nodup :=
    (List.Sublist.map (·.team_id) (List.filter_sublist sorted)).nodup hn
  exact (((sortDesc_perm a _).map (·.team_id)).symm).nodup hf

theorem mem_split_table_iff (c : TeamResult → ℕ) (a : TeamResult → ℚ)
    (sorted : List TeamResult) (t : TeamResult) :
    t ∈ split_table c a sorted ↔ t ∈ sorted ∧ 0 < c t := by
  rw [split_table, (sortDesc_perm a _).mem_iff, List.mem_filter]
  simp

theorem generate_rankings_length (results : List TeamResult) :
    (generate_rankings results).length = results.length := by
  simp [generate_rankings, List.enum_length, (sortDesc_perm _ results).length_eq,
    overall_sorted]

theorem generate_rankings_getElem_spec (results : List TeamResult) (i : ℕ)
    (h : i < (generate_rankings results).length) :
    ∃ h' : i < (overall_sorted results).length,
      (generate_rankings results)[i] =
        { rank := i + 1
          rank_vs_lhp := rank_in
            (split_table (·.games_vs_lhp) (·.avg_adj_vs_lhp) (overall_sorted results))
            ((overall_sorted results)[i]).team_id
          rank_vs_rhp := rank_in
            (split_table (·.games_vs_rhp) (·.avg_adj_vs_rhp) (overall_sorted results))
            ((overall_sorted results)[i]).team_id
          rank_home := rank_in
            (split_table (·.games_home) (·.avg_adj_home) (overall_sorted results))
            ((overall_sorted results)[i]).team_id
          rank_away := rank_in
            (split_table (·.games_away) (·.avg_adj_away) (overall_sorted results))
            ((overall_sorted results)[i]).team_id
          result := (overall_sorted results)[i] } := by
  have h' : i < (overall_sorted results).length := by
    have := generate_rankings_length results
    have hlen : (overall_sorted results).length = results.length :=
      (sortDesc_perm _ results).length_eq
    omega
  refine ⟨h', ?_⟩
  simp [generate_rankings, List.getElem_map, List.getElem_enum]

theorem mem_generate_rankings_spec (results : List TeamResult) (r : RankedRow)
    (hr : r ∈ generate_rankings results) :
    r.result ∈ overall_sorted results ∧
    r.rank_vs_lhp = rank_in
      (split_table (·.games_vs_lhp) (·.avg_adj_vs_lhp) (overall_sorted results))
      r.result.team_id ∧
    r.rank_vs_rhp = rank_in
      (split_table (·.games_vs_rhp) (·.avg_adj_vs_rhp) (overall_sorted results))
      r.result.team_id ∧
    r.rank_home = rank_in
      (split_table (·.games_home) (·.avg_adj_home) (overall_sorted results))
      r.result.team_id ∧
    r.rank_away = rank_in
      (split_table (·.games_away) (·.avg_adj_away) (overall_sorted results))
      r.result.team_id := by
  obtain ⟨i, h, he⟩ := List.mem_iff_getElem.mp hr
  obtain ⟨h', hspec⟩ := generate_rankings_getElem_spec results i h
  rw [← he, hspec]
  exact ⟨List.getElem_mem h', rfl, rfl, rfl, rfl⟩

theorem generate_rankings_map_result (results : List TeamResult) :
    (generate_rankings results).map (·.result) = overall_sorted results := by
  apply List.ext_getElem
  · rw [List.length_map, generate_rankings_length]
    exact ((sortDesc_perm _ results).length_eq).symm
  · intro i h1 h2
    obtain ⟨h', hspec⟩ := generate_rankings_getElem_spec results i (by simpa using h1)
    simp only [List.getElem_map, hspec]

theorem split_ranks_perm (c : TeamResult → ℕ) (a : TeamResult → ℚ)
    (results : List TeamResult) (hn : (results.map (·.team_id)).Nodup) :
    (((overall_sorted results).filter (fun t => decide (0 < c t))).map
        (fun t => rank_in (split_table c a (overall_sorted results)) t.team_id)).Perm
      (List.range' 1 ((results.filter (fun t => decide (0 < c t))).length)) := by
  have hsn := overall_sorted_nodup results hn
  have htn := split_table_nodup c a (overall_sorted results) hsn
  have hperm : (split_table c a (overall_sorted results)).Perm
      ((overall_sorted results).filter (fun t => decide (0 < c t))) :=
    sortDesc_perm a _
  have h2 := rank_in_map_self (split_table c a (overall_sorted results)) htn
  have hlen : (split_table c a (overall_sorted results)).length
      = (results.filter (fun t => decide (0 < c t))).length := by
    rw [hperm.length_eq]
    exact (((sortDesc_perm (·.avg_adjusted_score) results).filter _)).length_eq
  have h1 := (hperm.map
    (fun t => rank_in (split_table c a (overall_sorted results)) t.team_id)).symm
  rw [h2, hlen] at h1
  exact h1

theorem split_rank_zero (c : TeamResult → ℕ) (a : TeamResult → ℚ)
    (results : List TeamResult) (hn : (results.map (·.team_id)).Nodup)
    (t : TeamResult) (ht : t ∈ overall_sorted results) (hc : c t = 0) :
    rank_in (split_table c a (overall_sorted results)) t.team_id = 0 := by
  apply rank_in_eq_zero
  intro u hu he
  obtain ⟨hus, huc⟩ := (mem_split_table_iff c a _ u).mp hu
  have hsn := overall_sorted_nodup results hn
  have hut : u = t := List.inj_on_of_nodup_map hsn hus ht he
  rw [hut] at huc
  omega

theorem split_rank_mono (c : TeamResult → ℕ) (a : TeamResult → ℚ)
    (results : List TeamResult) (hn : (results.map (·.team_id)).Nodup)
    (t1 t2 : TeamResult)
    (h1 : t1 ∈ overall_sorted results) (h2 : t2 ∈ overall_sorted results)
    (hc1 : 0 < c t1) (hc2 : 0 < c t2)
    (hr : rank_in (split_table c a (overall_sorted results)) t1.team_id
        ≤ rank_in (split_table c a (overall_sorted results)) t2.team_id) :
    a t2 ≤ a t1 := by
  have hsn := overall_sorted_nodup results hn
  have htn := split_table_nodup c a (overall_sorted results) hsn
  have m1 : t1 ∈ split_table c a (overall_sorted results) :=
    (mem_split_table_iff c a _ t1).mpr ⟨h1, hc1⟩
  have m2 : t2 ∈ split_table c a (overall_sorted results) :=
    (mem_split_table_iff c a _ t2).mpr ⟨h2, hc2⟩
  obtain ⟨i, hi, hgi, hri⟩ := rank_in_mem _ htn t1 m1
  obtain ⟨j, hj, hgj, hrj⟩ := rank_in_mem _ htn t2 m2
  rw [hri, hrj] at hr
  have hsorted_tbl : (split_table c a (overall_sorted results)).Pairwise
      (fun x y => a y ≤ a x) := sortDesc_sorted a _
  rcases Nat.lt_or_ge i j with hlt | hge
  · have hp := List.pairwise_iff_getElem.mp hsorted_tbl i j hi hj hlt
    rw [hgi, hgj] at hp
    exact hp
  · have hij : i = j := by omega
    subst hij
    have ht12 : t1 = t2 := hgi.symm.trans hgj
    rw [ht12]

theorem gen_filter_map (results : List TeamResult) (c : TeamResult → ℕ)
    (g : TeamResult → ℕ) (rankproj : RankedRow → ℕ)
    (hproj : ∀ r ∈ generate_rankings results, rankproj r = g r.result) :
    ((generate_rankings results).filter (fun r => decide (0 < c r.result))).map rankproj
      = ((overall_sorted results).filter (fun t => decide (0 < c t))).map g := by
  have h1 : ((generate_rankings results).filter
        (fun r => decide (0 < c r.result))).map rankproj
      = ((generate_rankings results).filter
        (fun r => decide (0 < c r.result))).map (fun r => g r.result) :=
    List.map_congr_left (fun r hr => hproj r (List.mem_of_mem_filter hr))
  rw [h1, ← generate_rankings_map_result results, List.filter_map]
  simp only [List.map_map, Function.comp_def]

theorem split_bundle (c : TeamResult → ℕ) (a : TeamResult → ℚ)
    (rankproj : RankedRow → ℕ) (results : List TeamResult)
    (hn : (results.map (·.team_id)).Nodup)
    (hproj : ∀ r ∈ generate_rankings results,
      rankproj r = rank_in (split_table c a (overall_sorted results)) r.result.team_id) :
    (((generate_rankings results).filter
        (fun r => decide (0 < c r.result))).map rankproj).Perm
      (List.range' 1 ((results.filter (fun t => decide (0 < c t))).length)) ∧
    (∀ r ∈ generate_rankings results, c r.result = 0 → rankproj r = 0) ∧
    (∀ r1 ∈ generate_rankings results, ∀ r2 ∈ generate_rankings results,
      0 < c r1.result → 0 < c r2.result → rankproj r1 ≤ rankproj r2 →
      a r2.result ≤ a r1.result) := by
  refine ⟨?_, ?_, ?_⟩
  · rw [gen_filter_map results c
      (fun t => rank_in (split_table c a (overall_sorted results)) t.team_id)
      rankproj hproj]
    exact split_ranks_perm c a results hn
  · intro r hr hc
    rw [hproj r hr]
    exact split_rank_zero c a results hn r.result
      ((mem_generate_rankings_spec results r hr).1) hc
  · intro r1 h1 r2 h2 hc1 hc2 hle
    rw [hproj r1 h1, hproj r2 h2] at hle
    exact split_rank_mono c a results hn r1.result r2.result
      ((mem_generate_rankings_spec results r1 h1).1)
      ((mem_generate_rankings_spec results r2 h2).1) hc1 hc2 hle

/-! ## Claim theorems -/

/-- C1 counterexample: with smoothing factor `s = 0` (which is in `[0,1]`)
and `ra9_minus = 10`, `smooth_adjustment_factor` returns the raw `0.1`, not
the clamped `0.5`: the early return of the no-smoothing branch skips the
final clamp, so the result is not in `[0.5, 1.5]`. -/
theorem c1_clamp_counterexample :
    smooth_adjustment_factor 0 10 = 1/10
    ∧ ¬(1/2 ≤ smooth_adjustment_factor 0 10)
    ∧ smooth_adjustment_factor 0 10 ≠ 1/2 := by
  refine ⟨?_, ?_, ?_⟩ <;> norm_num [smooth_adjustment_factor]

/-- C1 (amended): for every RA9- value and every nonzero smoothing factor the
returned factor is clamped into `[0.5, 1.5]`; in the no-smoothing branch
(`s = 0`) the clamp is skipped and the raw `ra9_minus / 100` is returned
(so with `s = 0` and `ra9_minus = 10` the result is `0.1`). -/
theorem c1_clamp_amended (s ra9 : ℚ) (hs : s ≠ 0) :
    (1/2 ≤ smooth_adjustment_factor s ra9 ∧ smooth_adjustment_factor s ra9 ≤ 3/2)
    ∧ smooth_adjustment_factor 0 ra9 = ra9 / 100 :=
  ⟨⟨smooth_factor_ge_half s ra9 hs, smooth_factor_le s ra9 hs⟩,
    smooth_factor_of_zero ra9⟩

/-- Witness for C1 (amended) at `s = 0.3`, `ra9_minus = 10`. -/
theorem c1_clamp_amended_witness :
    (3/10 : ℚ) ≠ 0
    ∧ ((1/2 ≤ smooth_adjustment_factor (3/10) 10
        ∧ smooth_adjustment_factor (3/10) 10 ≤ 3/2)
      ∧ smooth_adjustment_factor 0 10 = 10 / 100) :=
  ⟨by norm_num, c1_clamp_amended (3/10) 10 (by norm_num)⟩

/-- C4: for every nonzero smoothing factor the transform computes
`deviation = ra9_minus - 100`, `smoothed = 100 + deviation * (1 - s)`,
`factor = smoothed / 100` and clamps into `[0.5, 1.5]`; with `s = 0` it
returns `ra9_minus / 100`; with `s = 0.3` the inputs 70, 130, 100 give
0.79, 1.21 and exactly 1. -/
theorem c4_smoothing_formula (s ra9 : ℚ) (hs : s ≠ 0) :
    smooth_adjustment_factor s ra9
        = max (1/2) (min (3/2) ((100 + (ra9 - 100) * (1 - s)) / 100))
    ∧ smooth_adjustment_factor 0 ra9 = ra9 / 100
    ∧ smooth_adjustment_factor (3/10) 70 = 79/100
    ∧ smooth_adjustment_factor (3/10) 130 = 121/100
    ∧ smooth_adjustment_factor (3/10) 100 = 1 := by
  refine ⟨smooth_factor_of_ne_zero s ra9 hs, smooth_factor_of_zero ra9, ?_, ?_, ?_⟩ <;>
    norm_num [smooth_adjustment_factor, max_def, min_def]

/-- Witness for C4 at `s = 0.3`, `ra9_minus = 70`. -/
theorem c4_smoothing_formula_witness :
    (3/10 : ℚ) ≠ 0
    ∧ smooth_adjustment_factor (3/10) 70
        = max (1/2) (min (3/2) ((100 + ((70:ℚ) - 100) * (1 - 3/10)) / 100)) :=
  ⟨by norm_num, (c4_smoothing_formula (3/10) 70 (by norm_num)).1⟩

/-- C6: with `innings_pitched = 0` (or wholly absent data) the pitching
quality index is exactly 100 regardless of `runs_allowed`; otherwise it is
`((runs_allowed / innings_pitched) * 9 / league_avg_ra9) * 100`, with no
clamp; the spec example `runs_allowed = 45, innings = 90,
league_avg_ra9 = 4.5` gives exactly 100. -/
theorem c6_ra9_minus (st : PitcherStats) :
    get_pitcher_ra9_minus none = 100
    ∧ (st.innings_pitched = 0 → get_pitcher_ra9_minus (some st) = 100)
    ∧ (st.innings_pitched ≠ 0 →
        get_pitcher_ra9_minus (some st)
          = st.runs_allowed / st.innings_pitched * 9 / st.league_avg_ra9 * 100)
    ∧ get_pitcher_ra9_minus (some ⟨45, 90, 9/2⟩) = 100 := by
  refine ⟨rfl, fun h => by simp [get_pitcher_ra9_minus, h],
    fun h => by simp [get_pitcher_ra9_minus, h], ?_⟩
  norm_num [get_pitcher_ra9_minus]

/-- Witness for C6 at the spec's example pitching totals. -/
theorem c6_ra9_minus_witness :
    ((⟨45, 90, 9/2⟩ : PitcherStats).innings_pitched ≠ 0)
    ∧ get_pitcher_ra9_minus (some ⟨45, 90, 9/2⟩)
        = (45 : ℚ) / 90 * 9 / (9/2) * 100 :=
  ⟨by norm_num, (c6_ra9_minus ⟨45, 90, 9/2⟩).2.2.1 (by norm_num)⟩

/-- C7: a venue with at least 10 games gets park factor
`(total_runs / game_count) / league_avg_runs_per_game`, unclamped; a venue
with fewer than 10 games gets exactly 1.0 regardless of its runs; the spec
examples `game_count = 9 ⇒ 1.0` and
`game_count = 10, total_runs = 100, league_avg = 5 ⇒ 2.0` hold. -/
theorem c7_park_factor (vs : VenueStats) (league_avg : ℚ) :
    (10 ≤ vs.games → park_factor_of league_avg vs = vs.runs / vs.games / league_avg)
    ∧ (vs.games < 10 → park_factor_of league_avg vs = 1)
    ∧ park_factor_of 5 ⟨100, 10⟩ = 2
    ∧ (∀ r : ℚ, park_factor_of league_avg ⟨r, 9⟩ = 1) := by
  refine ⟨fun h => by simp [park_factor_of, min_games_threshold, h],
    fun h => by simp [park_factor_of, min_games_threshold]; omega, ?_, fun r => by
      simp [park_factor_of, min_games_threshold]⟩
  norm_num [park_factor_of, min_games_threshold]

/-- Witness for C7 at the spec's example venues. -/
theorem c7_park_factor_witness :
    (10 ≤ (⟨100, 10⟩ : VenueStats).games)
    ∧ park_factor_of 5 ⟨100, 10⟩ = (100 : ℚ) / ((10 : ℕ) : ℚ) / 5
    ∧ ((⟨100, 9⟩ : VenueStats).games < 10)
    ∧ park_factor_of 5 ⟨100, 9⟩ = 1 :=
  ⟨by norm_num, (c7_park_factor ⟨100, 10⟩ 5).1 (by norm_num),
    by norm_num, (c7_park_factor ⟨100, 9⟩ 5).2.1 (by norm_num)⟩

/-- C2 counterexample: with smoothing factor `s = 0` (which is in `[0,1]`)
and an opponent that allowed 0 runs over 90 innings (RA9- of 0), the
opponent factor is `0/100 = 0`, so the per-game divisor
`opponent_factor * park_factor` is zero and the Python division raises
`ZeroDivisionError`. -/
theorem c2_divisor_counterexample :
    get_pitcher_ra9_minus (some ⟨0, 90, 9/2⟩) = 0
    ∧ smooth_adjustment_factor 0 (get_pitcher_ra9_minus (some ⟨0, 90, 9/2⟩)) = 0
    ∧ smooth_adjustment_factor 0 (get_pitcher_ra9_minus (some ⟨0, 90, 9/2⟩))
        * game_park_factor [] none = 0 := by
  refine ⟨?_, ?_, ?_⟩ <;>
    norm_num [get_pitcher_ra9_minus, smooth_adjustment_factor, game_park_factor]

/-- C2 (amended): for every game record and every nonzero smoothing factor
the opponent factor is clamped to at least `0.5` and hence never zero, so
`adjusted_score_no_park` always divides by a nonzero number; the combined
divisor `opponent_factor * park_factor` is nonzero whenever the venue's park
factor is nonzero.  (With `s = 0` an opponent RA9- of 0 zeroes the divisor,
as does a park factor of 0 from a venue with `≥ 10` games and 0 total
runs.) -/
theorem c2_divisor_amended (s : ℚ) (pt qt : List (ℕ × ℚ)) (g : GameRecord)
    (hs : s ≠ 0) (hpf : game_park_factor qt g.venue_id ≠ 0) :
    smooth_adjustment_factor s (opponent_ra9_minus pt g.opponent_id) ≠ 0
    ∧ smooth_adjustment_factor s (opponent_ra9_minus pt g.opponent_id)
        * game_park_factor qt g.venue_id ≠ 0 :=
  ⟨smooth_factor_ne_zero s _ hs,
    mul_ne_zero (smooth_factor_ne_zero s _ hs) hpf⟩

/-- Witness for C2 (amended) at `s = 0.3` and a game with no venue id. -/
theorem c2_divisor_amended_witness :
    (3/10 : ℚ) ≠ 0
    ∧ game_park_factor [] (GameRecord.venue_id ⟨7, Hand.L, true, none, 5⟩) ≠ 0
    ∧ (smooth_adjustment_factor (3/10)
          (opponent_ra9_minus [] (GameRecord.opponent_id ⟨7, Hand.L, true, none, 5⟩)) ≠ 0
      ∧ smooth_adjustment_factor (3/10)
          (opponent_ra9_minus [] (GameRecord.opponent_id ⟨7, Hand.L, true, none, 5⟩))
          * game_park_factor [] (GameRecord.venue_id ⟨7, Hand.L, true, none, 5⟩) ≠ 0) :=
  ⟨by norm_num, by norm_num [game_park_factor],
    c2_divisor_amended (3/10) [] [] ⟨7, Hand.L, true, none, 5⟩ (by norm_num)
      (by norm_num [game_park_factor])⟩

/-- C8: the per-game adjustment divides the raw game score by the product of
the opponent's smoothed quality factor and the venue's park factor, and the
no-park variant by the opponent factor alone; a missing venue id and a venue
absent from the park-factor table both contribute the neutral factor 1.0. -/
theorem c8_per_game_adjustment (s : ℚ) (pt qt : List (ℕ × ℚ)) (g : GameRecord) :
    (adjust_game s pt qt g).adjusted_score
        = g.game_score / (smooth_adjustment_factor s (opponent_ra9_minus pt g.opponent_id)
            * game_park_factor qt g.venue_id)
    ∧ (adjust_game s pt qt g).adjusted_score_no_park
        = g.game_score / smooth_adjustment_factor s (opponent_ra9_minus pt g.opponent_id)
    ∧ game_park_factor qt none = 1
    ∧ (∀ v : ℕ, qt.lookup v = none → game_park_factor qt (some v) = 1) := by
  refine ⟨rfl, rfl, rfl, fun v hv => ?_⟩
  by_cases h0 : v = 0 <;> simp [game_park_factor, h0, hv]

/-- Witness for C8: a venue id absent from an empty park-factor table gives
the neutral factor. -/
theorem c8_per_game_adjustment_witness :
    ([] : List (ℕ × ℚ)).lookup 5 = none
    ∧ game_park_factor [] (some 5) = 1 :=
  ⟨rfl, (c8_per_game_adjustment 0 [] [] ⟨7, Hand.L, true, none, 5⟩).2.2.2 5 rfl⟩

/-- C5: a textual `"whole.fraction"` innings value maps to
`whole + fraction/3` with the digit taken at face value (no rounding to a
valid third); a dot-free value that does not parse yields `0.0` (the parser
is total, so it never raises); the spec examples `"6.0"`, `"6.1"`, `"6.2"`,
`"6"`, `"abc"` evaluate as stated. -/
theorem c5_parse_innings :
    (∀ w f : List Char, w ≠ [] → f ≠ [] →
      w.all Char.isDigit → f.all Char.isDigit →
      parse_innings_chars (w ++ '.' :: f) = (digitsVal w : ℚ) + (digitsVal f : ℚ) / 3)
    ∧ (∀ l : List Char, '.' ∉ l → pyFloatSimple? l = none → parse_innings_chars l = 0)
    ∧ parse_innings "6.0" = 6
    ∧ parse_innings "6.1" = 6 + 1/3
    ∧ parse_innings "6.2" = 6 + 2/3
    ∧ parse_innings "6" = 6
    ∧ parse_innings "abc" = 0 := by
  refine ⟨parse_innings_chars_dot, fun l hdot hfl => ?_, ?_, ?_, ?_, ?_, ?_⟩
  · have hcont : l.contains '.' = false := by simpa using hdot
    simp only [parse_innings_chars, hcont, Bool.false_eq_true, if_false, hfl]
  all_goals
    norm_num +decide [parse_innings, parse_innings_chars, splitOnDot, pyInt?, pyFloatSimple?,
      show digitsVal ['6'] = 6 from by decide, show digitsVal ['0'] = 0 from by decide,
      show digitsVal ['1'] = 1 from by decide, show digitsVal ['2'] = 2 from by decide]

/-- Witness for C5: the universally quantified "whole.fraction" clause at the
concrete digit strings `"45"` and `"2"`. -/
theorem c5_parse_innings_witness :
    ((['4','5'] : List Char) ≠ [] ∧ (['4','5'] : List Char).all Char.isDigit)
    ∧ parse_innings_chars (['4','5'] ++ '.' :: ['2'])
        = (digitsVal ['4','5'] : ℚ) + (digitsVal ['2'] : ℚ) / 3 :=
  ⟨⟨by decide, by decide⟩,
    c5_parse_innings.1 ['4','5'] ['2'] (by decide) (by decide) (by decide) (by decide)⟩

/-- C10: a fractional part with more than one digit is read whole by
`int()` and still divided by 3: `"145.15"` parses to `145 + 15/3 = 150.0`
(neither rejected, nor truncated, nor mapped to `0.0`); in general any digit
strings around a single dot map to `whole + fraction/3`. -/
theorem c10_multidigit_fraction :
    parse_innings "145.15" = 145 + 15/3
    ∧ parse_innings "145.15" = 150
    ∧ parse_innings "145.15" ≠ 0
    ∧ (∀ w f : List Char, w ≠ [] → f ≠ [] →
        w.all Char.isDigit → f.all Char.isDigit →
        parse_innings_chars (w ++ '.' :: f)
          = (digitsVal w : ℚ) + (digitsVal f : ℚ) / 3) := by
  refine ⟨?_, ?_, ?_, parse_innings_chars_dot⟩ <;>
    norm_num +decide [parse_innings, parse_innings_chars, splitOnDot, pyInt?, pyFloatSimple?,
      show digitsVal ['1','4','5'] = 145 from by decide,
      show digitsVal ['1','5'] = 15 from by decide]

/-- Witness for C10: the universally quantified clause at the concrete digit
strings `"12"` and `"10"`. -/
theorem c10_multidigit_fraction_witness :
    ((['1','0'] : List Char) ≠ [] ∧ (['1','0'] : List Char).all Char.isDigit)
    ∧ parse_innings_chars (['1','2'] ++ '.' :: ['1','0'])
        = (digitsVal ['1','2'] : ℚ) + (digitsVal ['1','0'] : ℚ) / 3 :=
  ⟨⟨by decide, by decide⟩,
    c10_multidigit_fraction.2.2.2 ['1','2'] ['1','0']
      (by decide) (by decide) (by decide) (by decide)⟩

/-- C9: games with Unknown opposing-starter hand are excluded from both
handedness splits but still counted in the overall average (the three hand
counts partition the games); every game lands in exactly one of the
home/away splits, which are computed from the no-park adjusted score; and a
split with zero games yields average 0 and count 0 rather than an error. -/
theorem c9_team_aggregation (tid : ℕ) (s : ℚ) (pt qt : List (ℕ × ℚ))
    (games : List GameRecord) :
    (team_result tid s pt qt games).games_played = games.length
    ∧ (0 < games.length →
        (team_result tid s pt qt games).avg_adjusted_score
          = (games.map (fun g => (adjust_game s pt qt g).adjusted_score)).sum
            / games.length)
    ∧ (team_result tid s pt qt games).games_vs_lhp
        = (games.filter (fun g => decide (g.pitcher_hand = Hand.L))).length
    ∧ (team_result tid s pt qt games).games_vs_rhp
        = (games.filter (fun g => decide (g.pitcher_hand = Hand.R))).length
    ∧ (team_result tid s pt qt games).games_vs_lhp
        + (team_result tid s pt qt games).games_vs_rhp
        + (games.filter (fun g => decide (g.pitcher_hand = Hand.Unknown))).length
        = games.length
    ∧ (team_result tid s pt qt games).games_home
        = (games.filter (fun g => g.is_home)).length
    ∧ (team_result tid s pt qt games).games_away
        = (games.filter (fun g => !g.is_home)).length
    ∧ (team_result tid s pt qt games).games_home
        + (team_result tid s pt qt games).games_away = games.length
    ∧ ((team_result tid s pt qt games).games_vs_lhp = 0 →
        (team_result tid s pt qt games).avg_adj_vs_lhp = 0)
    ∧ ((team_result tid s pt qt games).games_vs_rhp = 0 →
        (team_result tid s pt qt games).avg_adj_vs_rhp = 0)
    ∧ ((team_result tid s pt qt games).games_home = 0 →
        (team_result tid s pt qt games).avg_adj_home = 0)
    ∧ ((team_result tid s pt qt games).games_away = 0 →
        (team_result tid s pt qt games).avg_adj_away = 0)
    ∧ (0 < (team_result tid s pt qt games).games_home →
        (team_result tid s pt qt games).avg_adj_home
          = ((games.filter (fun g => g.is_home)).map
              (fun g => (adjust_game s pt qt g).adjusted_score_no_park)).sum
            / (games.filter (fun g => g.is_home)).length)
    ∧ (0 < (team_result tid s pt qt games).games_away →
        (team_result tid s pt qt games).avg_adj_away
          = ((games.filter (fun g => !g.is_home)).map
              (fun g => (adjust_game s pt qt g).adjusted_score_no_park)).sum
            / (games.filter (fun g => !g.is_home)).length) := by
  have hlhp : (team_result tid s pt qt games).games_vs_lhp
      = (games.filter (fun g => decide (g.pitcher_hand = Hand.L))).length := by
    simp only [team_result, List.length_map, filter_map_length, adjust_game_hand]
  have hrhp : (team_result tid s pt qt games).games_vs_rhp
      = (games.filter (fun g => decide (g.pitcher_hand = Hand.R))).length := by
    simp only [team_result, List.length_map, filter_map_length, adjust_game_hand]
  have hhome : (team_result tid s pt qt games).games_home
      = (games.filter (fun g => g.is_home)).length := by
    simp only [team_result, List.length_map, filter_map_length, adjust_game_is_home]
  have haway : (team_result tid s pt qt games).games_away
      = (games.filter (fun g => !g.is_home)).length := by
    simp only [team_result, List.length_map, filter_map_length, adjust_game_is_home]
  have hxs_home : ((games.map (adjust_game s pt qt)).filter
        (fun a => a.is_home)).map (fun a => a.adjusted_score_no_park)
      = (games.filter (fun g => g.is_home)).map
        (fun g => (adjust_game s pt qt g).adjusted_score_no_park) := by
    rw [filter_map_map]
    simp only [adjust_game_is_home]
  have hxs_away : ((games.map (adjust_game s pt qt)).filter
        (fun a => !a.is_home)).map (fun a => a.adjusted_score_no_park)
      = (games.filter (fun g => !g.is_home)).map
        (fun g => (adjust_game s pt qt g).adjusted_score_no_park) := by
    rw [filter_map_map]
    simp only [adjust_game_is_home]
  refine ⟨rfl, ?_, hlhp, hrhp, ?_, hhome, haway, ?_, ?_, ?_, ?_, ?_, ?_, ?_⟩
  · intro h
    simp only [team_result]
    rw [if_neg (by omega), List.map_map]
    simp only [Function.comp_def]
  · rw [hlhp, hrhp]
    exact hand_partition games
  · rw [hhome, haway]
    exact bool_partition (fun g => g.is_home) games
  · intro h
    simp only [team_result] at h ⊢
    exact avg_or_zero_of_length_zero _ h
  · intro h
    simp only [team_result] at h ⊢
    exact avg_or_zero_of_length_zero _ h
  · intro h
    simp only [team_result] at h ⊢
    exact avg_or_zero_of_length_zero _ h
  · intro h
    simp only [team_result] at h ⊢
    exact avg_or_zero_of_length_zero _ h
  · intro h
    simp only [team_result] at h ⊢
    rw [hxs_home] at h ⊢
    rw [avg_or_zero_of_ne_nil _ (by omega), List.length_map]
  · intro h
    simp only [team_result] at h ⊢
    rw [hxs_away] at h ⊢
    rw [avg_or_zero_of_ne_nil _ (by omega), List.length_map]

/-- Witness for C9: the zero-split and nonempty-split clauses at a concrete
one-game list (a home game against an unknown-handed starter). -/
theorem c9_team_aggregation_witness :
    ((team_result 1 0 [] [] [⟨2, Hand.Unknown, true, none, 4⟩]).games_vs_lhp = 0
      ∧ (team_result 1 0 [] [] [⟨2, Hand.Unknown, true, none, 4⟩]).avg_adj_vs_lhp = 0)
    ∧ (0 < (team_result 1 0 [] [] [⟨2, Hand.Unknown, true, none, 4⟩]).games_home
      ∧ (team_result 1 0 [] [] [⟨2, Hand.Unknown, true, none, 4⟩]).avg_adj_home
          = ((([⟨2, Hand.Unknown, true, none, 4⟩] :
                List GameRecord).filter (fun g => g.is_home)).map
              (fun g => (adjust_game 0 [] [] g).adjusted_score_no_park)).sum
            / (([⟨2, Hand.Unknown, true, none, 4⟩] :
                List GameRecord).filter (fun g => g.is_home)).length) := by
  constructor
  · refine ⟨rfl, ?_⟩
    exact (c9_team_aggregation 1 0 [] []
      [⟨2, Hand.Unknown, true, none, 4⟩]).2.2.2.2.2.2.2.2.1 rfl
  · refine ⟨by decide, ?_⟩
    exact (c9_team_aggregation 1 0 [] []
      [⟨2, Hand.Unknown, true, none, 4⟩]).2.2.2.2.2.2.2.2.2.2.2.2.1 (by decide)

/-- C3: in the final merged table, the overall ranks are exactly `1..n` in
table order (so the table is ordered by overall rank ascending and, with
every team having at least one game, the overall ranks of the `count > 0`
teams are a permutation of `1..n`); the overall averages are non-increasing
down the table; and for each of the four split metrics the ranks of the
teams with a positive split count are a permutation of `1..k`, teams with a
zero split count get the sentinel rank 0, and a lower split rank never has a
smaller split average. -/
theorem c3_ranking_invariants (results : List TeamResult)
    (hids : (results.map (·.team_id)).Nodup)
    (hpos : ∀ t ∈ results, 0 < t.games_played) :
    (generate_rankings results).map (·.rank) = List.range' 1 results.length
    ∧ (generate_rankings results).filter
        (fun r => decide (0 < r.result.games_played)) = generate_rankings results
    ∧ (generate_rankings results).Pairwise
        (fun r1 r2 => r2.result.avg_adjusted_score ≤ r1.result.avg_adjusted_score)
    ∧ ((((generate_rankings results).filter
          (fun r => decide (0 < r.result.games_vs_lhp))).map (·.rank_vs_lhp)).Perm
        (List.range' 1 ((results.filter (fun t => decide (0 < t.games_vs_lhp))).length))
      ∧ (∀ r ∈ generate_rankings results,
          r.result.games_vs_lhp = 0 → r.rank_vs_lhp = 0)
      ∧ (∀ r1 ∈ generate_rankings results, ∀ r2 ∈ generate_rankings results,
          0 < r1.result.games_vs_lhp → 0 < r2.result.games_vs_lhp →
          r1.rank_vs_lhp ≤ r2.rank_vs_lhp →
          r2.result.avg_adj_vs_lhp ≤ r1.result.avg_adj_vs_lhp))
    ∧ ((((generate_rankings results).filter
          (fun r => decide (0 < r.result.games_vs_rhp))).map (·.rank_vs_rhp)).Perm
        (List.range' 1 ((results.filter (fun t => decide (0 < t.games_vs_rhp))).length))
      ∧ (∀ r ∈ generate_rankings results,
          r.result.games_vs_rhp = 0 → r.rank_vs_rhp = 0)
      ∧ (∀ r1 ∈ generate_rankings results, ∀ r2 ∈ generate_rankings results,
          0 < r1.result.games_vs_rhp → 0 < r2.result.games_vs_rhp →
          r1.rank_vs_rhp ≤ r2.rank_vs_rhp →
          r2.result.avg_adj_vs_rhp ≤ r1.result.avg_adj_vs_rhp))
    ∧ ((((generate_rankings results).filter
          (fun r => decide (0 < r.result.games_home))).map (·.rank_home)).Perm
        (List.range' 1 ((results.filter (fun t => decide (0 < t.games_home))).length))
      ∧ (∀ r ∈ generate_rankings results,
          r.result.games_home = 0 → r.rank_home = 0)
      ∧ (∀ r1 ∈ generate_rankings results, ∀ r2 ∈ generate_rankings results,
          0 < r1.result.games_home → 0 < r2.result.games_home →
          r1.rank_home ≤ r2.rank_home →
          r2.result.avg_adj_home ≤ r1.result.avg_adj_home))
    ∧ ((((generate_rankings results).filter
          (fun r => decide (0 < r.result.games_away))).map (·.rank_away)).Perm
        (List.range' 1 ((results.filter (fun t => decide (0 < t.games_away))).length))
      ∧ (∀ r ∈ generate_rankings results,
          r.result.games_away = 0 → r.rank_away = 0)
      ∧ (∀ r1 ∈ generate_rankings results, ∀ r2 ∈ generate_rankings results,
          0 < r1.result.games_away → 0 < r2.result.games_away →
          r1.rank_away ≤ r2.rank_away →
          r2.result.avg_adj_away ≤ r1.result.avg_adj_away)) := by
  refine ⟨?_, ?_, ?_, ?_, ?_, ?_, ?_⟩
  · apply List.ext_getElem
    · simp [generate_rankings_length]
    · intro i h1 h2
      obtain ⟨h', hspec⟩ := generate_rankings_getElem_spec results i (by simpa using h1)
      simp only [List.getElem_map, hspec, List.getElem_range']
      omega
  · rw [List.filter_eq_self]
    intro r hr
    have hmem := (mem_generate_rankings_spec results r hr).1
    have hres : r.result ∈ results := ((sortDesc_perm _ results).mem_iff).mp hmem
    simpa using hpos r.result hres
  · rw [List.pairwise_iff_getElem]
    intro i j hi hj hij
    obtain ⟨hi', hsi⟩ := generate_rankings_getElem_spec results i hi
    obtain ⟨hj', hsj⟩ := generate_rankings_getElem_spec results j hj
    rw [hsi, hsj]
    exact List.pairwise_iff_getElem.mp
      (sortDesc_sorted (·.avg_adjusted_score) results) i j hi' hj' hij
  · exact split_bundle (·.games_vs_lhp) (·.avg_adj_vs_lhp) (·.rank_vs_lhp) results hids
      (fun r hr => (mem_generate_rankings_spec results r hr).2.1)
  · exact split_bundle (·.games_vs_rhp) (·.avg_adj_vs_rhp) (·.rank_vs_rhp) results hids
      (fun r hr => (mem_generate_rankings_spec results r hr).2.2.1)
  · exact split_bundle (·.games_home) (·.avg_adj_home) (·.rank_home) results hids
      (fun r hr => (mem_generate_rankings_spec results r hr).2.2.2.1)
  · exact split_bundle (·.games_away) (·.avg_adj_away) (·.rank_away) results hids
      (fun r hr => (mem_generate_rankings_spec results r hr).2.2.2.2)

/-- Concrete three-team input used to witness the ranking theorem: team 2
has no games vs LHP, team 3 has no games vs RHP and none at home. -/
def sample_results : List TeamResult :=
  [{ team_id := 1, games_played := 2, avg_adjusted_score := 10,
     avg_adj_vs_lhp := 8, avg_adj_vs_rhp := 9, games_vs_lhp := 1, games_vs_rhp := 1,
     avg_adj_home := 11, avg_adj_away := 7, games_home := 1, games_away := 1 },
   { team_id := 2, games_played := 2, avg_adjusted_score := 12,
     avg_adj_vs_lhp := 0, avg_adj_vs_rhp := 9, games_vs_lhp := 0, games_vs_rhp := 2,
     avg_adj_home := 10, avg_adj_away := 8, games_home := 1, games_away := 1 },
   { team_id := 3, games_played := 1, avg_adjusted_score := 11,
     avg_adj_vs_lhp := 6, avg_adj_vs_rhp := 0, games_vs_lhp := 1, games_vs_rhp := 0,
     avg_adj_home := 0, avg_adj_away := 9, games_home := 0, games_away := 1 }]

/-- Witness for C3 at the concrete `sample_results` input. -/
theorem c3_ranking_invariants_witness :
    (generate_rankings sample_results).map (·.rank)
        = List.range' 1 sample_results.length
    ∧ (generate_rankings sample_results).Pairwise
        (fun r1 r2 => r2.result.avg_adjusted_score ≤ r1.result.avg_adjusted_score)
    ∧ (((generate_rankings sample_results).filter
          (fun r => decide (0 < r.result.games_vs_lhp))).map (·.rank_vs_lhp)).Perm
        (List.range' 1
          ((sample_results.filter (fun t => decide (0 < t.games_vs_lhp))).length))
    ∧ (∀ r ∈ generate_rankings sample_results,
        r.result.games_vs_lhp = 0 → r.rank_vs_lhp = 0) := by
  have h := c3_ranking_invariants sample_results (by decide) (by decide)
  exact ⟨h.1, h.2.2.1, h.2.2.2.1.1, h.2.2.2.1.2.1⟩

end MLB
